import Mathlib

/-!
Shallow embedding of the Quoridor rule engine (src/Quoridor/quoridor.py).

Conventions used throughout:

* Board positions and direction vectors are pairs of integers, as in the
  Python source (`pos`, `(dx, dy)` tuples of `int`).
* The source stores wall coordinates as half-integers: `Wall.__init__`
  adds `0.5` to both endpoints unless `fake=True`.  To stay in `Int` we
  store every wall coordinate DOUBLED: a real (non-fake) wall endpoint
  `(x + 0.5, y + 0.5)` becomes `(2*x + 1, 2*y + 1)`, and a fake probe
  endpoint `(x, y)` becomes `(2*x, 2*y)`.  Every comparison performed by
  `Wall.overlaps` is an order comparison or an equality, and both are
  preserved by doubling, so the Boolean behaviour is identical.
* Python's mutable `self.walls` list is threaded explicitly: functions
  that speculatively append and delete walls take the wall list and
  return the (possibly) updated wall list alongside their result.
* Python's `self.visited` set is threaded explicitly through
  `wayExistsGo` as a list of positions.  Every call site of
  `way_exists` in the source is immediately preceded by `self.reset()`,
  so the derived pure function `wayExists` starts from the empty
  visited set.
* Recursive/looping procedures (`way_exists`, the `bfs` while loop) are
  embedded with a fuel parameter.  The DFS visits each cell at most
  once and the BFS inserts each cell into the queue at most once, so on
  the fixed 9×9 board a fuel of 100 is never exhausted; exhaustion
  returns the same value as the corresponding failure case.
* Python list indexing in `Board.move`/grid reads is modelled with
  `List.getD`/`List.set` total operations; all uses in the source are
  guarded so the indices are in `[0, 8]`.
-/

/-- A board position or lattice point: a pair of integers, `(x, y)`. -/
abbrev Pos : Type := Int × Int

/-- A direction vector `(dx, dy)`. -/
abbrev Dir : Type := Int × Int

/-- `DEFAULT = [(-1, 0), (1, 0), (0, -1), (0, 1)]` from the source. -/
def DEFAULT : List Dir := [(-1, 0), (1, 0), (0, -1), (0, 1)]

/-- A wall segment (`class Wall`).  `start`/`stop` are the `self.start`
and `self.end` fields with both coordinates doubled (`end` is a Lean
keyword, hence `stop`). -/
structure Wall where
  start : Int × Int
  stop : Int × Int
  deriving DecidableEq, Repr

/-- `Wall.__init__(start, end, fake)`: shift by `0.5` (here: double and
add 1 for real walls, just double for fake probes), then swap the two
endpoints when `start[0] > end[0] or start[1] > end[1]`. -/
def mkWall (s e : Pos) (fake : Bool := false) : Wall :=
  let a : Int × Int := if fake then (2 * s.1, 2 * s.2) else (2 * s.1 + 1, 2 * s.2 + 1)
  let b : Int × Int := if fake then (2 * e.1, 2 * e.2) else (2 * e.1 + 1, 2 * e.2 + 1)
  if a.1 > b.1 ∨ a.2 > b.2 then { start := b, stop := a } else { start := a, stop := b }

/-- `Wall.overlaps(self, other)`: the source's seven `if` cases, in
order, as one disjunction (each Python `if` immediately returns
`True`). -/
def Wall.overlaps (w o : Wall) : Bool :=
  decide (
    (w.start = o.start ∧ w.stop = o.stop) ∨
    (w.start.1 < o.stop.1 ∧ o.stop.1 < w.stop.1 ∧
      w.start.2 = w.stop.2 ∧ w.stop.2 = o.stop.2 ∧ o.stop.2 = o.start.2) ∨
    (w.start.1 < o.start.1 ∧ o.start.1 < w.stop.1 ∧
      w.start.2 = w.stop.2 ∧ w.stop.2 = o.stop.2 ∧ o.stop.2 = o.start.2) ∨
    (w.start.2 < o.stop.2 ∧ o.stop.2 < w.stop.2 ∧
      w.start.1 = w.stop.1 ∧ w.stop.1 = o.stop.1 ∧ o.stop.1 = o.start.1) ∨
    (w.start.2 < o.start.2 ∧ o.start.2 < w.stop.2 ∧
      w.start.1 = w.stop.1 ∧ w.stop.1 = o.stop.1 ∧ o.stop.1 = o.start.1) ∨
    (w.start.2 < o.start.2 ∧ o.start.2 < w.stop.2 ∧
      o.start.1 < w.start.1 ∧ w.start.1 < o.stop.1) ∨
    (w.start.1 < o.start.1 ∧ o.start.1 < w.stop.1 ∧
      o.start.2 < w.start.2 ∧ w.start.2 < o.stop.2))

/-- `Validator.any_overlap(start, end, fake)`: build the probe wall and
test it against every wall in the list (`for wall in self.walls: if
check.overlaps(wall): return True`). -/
def anyOverlap (walls : List Wall) (s e : Pos) (fake : Bool) : Bool :=
  walls.any fun w => (mkWall s e fake).overlaps w

/-- `class Player` (the fields used by the rule engine). -/
structure Player where
  colour : String
  position : Pos
  remaining_walls : Int
  won : Bool
  wins : Pos
  deriving DecidableEq, Repr

/-- Fallback used only for the total modelling of Python list indexing
(`players[i]`); every theorem below guards the index, so this value is
never reached in a claim. -/
def defaultPlayer : Player :=
  { colour := "", position := (0, 0), remaining_walls := 0, won := false, wins := (0, 0) }

/-- `Player.__init__(colour, position, walls)`.  The source sets
`self.wins` only when `position[1] == 4` or `position[0] == 4`; in any
other case the attribute stays unset and a later access would raise, so
we return `none` there. -/
def mkPlayer (colour : String) (position : Pos) (walls : Int) : Option Player :=
  if position.2 = 4 then
    some { colour, position, remaining_walls := walls, won := false,
           wins := (8 - position.1, -1) }
  else if position.1 = 4 then
    some { colour, position, remaining_walls := walls, won := false,
           wins := (-1, 8 - position.2) }
  else none

/-- `Player.setpos(position)`: update the position and set `won` when
`position[0] == wins[0] or position[1] == wins[1]` (the `int(...)`
coercions in the source are identities on integers). -/
def Player.setpos (p : Player) (position : Pos) : Player :=
  { p with position,
           won := if position.1 = p.wins.1 ∨ position.2 = p.wins.2 then true else p.won }

/-- `Player.place_wall()`: `self.remaining_walls -= 1` (unconditional). -/
def Player.place_wall (p : Player) : Player :=
  { p with remaining_walls := p.remaining_walls - 1 }

/-- The occupancy grid: `Board.grid`, a 9-list of 9-lists indexed
`grid[x][y]`, holding the occupying player's index or `None`. -/
abbrev Grid : Type := List (List (Option Nat))

/-- Read `grid[x][y]` (all source reads are guarded to `0 ≤ x, y < 9`). -/
def gridGet (grid : Grid) (x y : Int) : Option Nat :=
  (grid.getD x.toNat []).getD y.toNat none

/-- Write `grid[x][y] = v`. -/
def gridSet (grid : Grid) (p : Pos) (v : Option Nat) : Grid :=
  grid.set p.1.toNat ((grid.getD p.1.toNat []).set p.2.toNat v)

/-- `Board.move(fr, to)`: `grid[to] = grid[fr]; grid[fr] = None`
(`to` is a Lean keyword, hence `dst`). -/
def gridMove (grid : Grid) (fr dst : Pos) : Grid :=
  gridSet (gridSet grid dst (gridGet grid fr.1 fr.2)) fr none

/-- The destinations contributed by one direction `(dx, dy)` of the
`for dx, dy in DEFAULT` loop of `Validator.possible_moves(pos)`,
appended in source order.  The jump test probes the full 2-cell fake
segment `pos → pos + 2*(dx,dy)`, and each side-step test probes the
diagonal fake segment from `pos` to the side cell, exactly as in the
source. -/
def movesFor (grid : Grid) (walls : List Wall) (pos : Pos) (d : Dir) : List Pos :=
  if 0 ≤ pos.1 + d.1 ∧ pos.1 + d.1 < 9 ∧ 0 ≤ pos.2 + d.2 ∧ pos.2 + d.2 < 9 then
    if gridGet grid (pos.1 + d.1) (pos.2 + d.2) ≠ none then
      if 0 ≤ pos.1 + d.1 * 2 ∧ pos.1 + d.1 * 2 < 9 ∧
         0 ≤ pos.2 + d.2 * 2 ∧ pos.2 + d.2 * 2 < 9 ∧
         gridGet grid (pos.1 + d.1 * 2) (pos.2 + d.2 * 2) = none ∧
         anyOverlap walls pos (pos.1 + 2 * d.1, pos.2 + 2 * d.2) true = false then
        [(pos.1 + 2 * d.1, pos.2 + 2 * d.2)]
      else
        (if d.2 ≠ 0 ∧ pos.1 + 1 < 9 ∧ gridGet grid (pos.1 + 1) (pos.2 + d.2) = none ∧
            anyOverlap walls pos (pos.1 + 1, pos.2 + d.2) true = false then
          [(pos.1 + 1, pos.2 + d.2)] else []) ++
        (if d.2 ≠ 0 ∧ pos.1 - 1 ≥ 0 ∧ gridGet grid (pos.1 - 1) (pos.2 + d.2) = none ∧
            anyOverlap walls pos (pos.1 - 1, pos.2 + d.2) true = false then
          [(pos.1 - 1, pos.2 + d.2)] else []) ++
        (if d.1 ≠ 0 ∧ pos.2 + 1 < 9 ∧ gridGet grid (pos.1 + d.1) (pos.2 + 1) = none ∧
            anyOverlap walls pos (pos.1 + d.1, pos.2 + 1) true = false then
          [(pos.1 + d.1, pos.2 + 1)] else []) ++
        (if d.1 ≠ 0 ∧ pos.2 - 1 ≥ 0 ∧ gridGet grid (pos.1 + d.1) (pos.2 - 1) = none ∧
            anyOverlap walls pos (pos.1 + d.1, pos.2 - 1) true = false then
          [(pos.1 + d.1, pos.2 - 1)] else [])
    else if anyOverlap walls pos (pos.1 + d.1, pos.2 + d.2) true = false then
      [(pos.1 + d.1, pos.2 + d.2)]
    else []
  else []

/-- `Validator.possible_moves(pos)`: the four directions of `DEFAULT`
in order, concatenating each direction's contributions. -/
def possibleMoves (grid : Grid) (walls : List Wall) (pos : Pos) : List Pos :=
  (DEFAULT.map (movesFor grid walls pos)).flatten

/-- Fuel bound for the recursive searches.  The DFS only recurses into
unvisited cells (each call adds its cell to `visited` before recursing)
and the BFS enqueues each cell at most once, so on the 81-cell board
neither search ever needs more than 83 steps; 100 is never exhausted. -/
def FUEL : Nat := 100

/-- `Validator.way_exists(node, dest)` with the mutable `self.visited`
set threaded explicitly (second component).  A goal node returns `True`
without being added to `visited`, otherwise the node is added and the
four directions are tried in `DEFAULT` order, propagating the visited
set (and an early `True`) across the loop, exactly as the recursive
Python DFS does with its shared set. -/
def wayExistsGo (walls : List Wall) (dest : Pos) :
    Nat → Pos → List Pos → Bool × List Pos
  | 0, _, vis => (false, vis)
  | fuel + 1, node, vis =>
    if node.1 = dest.1 ∨ node.2 = dest.2 then (true, vis)
    else
      DEFAULT.foldl
        (fun acc d =>
          if acc.1 then acc
          else
            let e : Pos := (node.1 + d.1, node.2 + d.2)
            if 0 ≤ e.1 ∧ e.1 < 9 ∧ 0 ≤ e.2 ∧ e.2 < 9 ∧ e ∉ acc.2 ∧
               anyOverlap walls node e true = false then
              wayExistsGo walls dest fuel e acc.2
            else acc)
        (false, node :: vis)

/-- `Validator.reset()`: `self.visited = set()`. -/
def resetVisited (_vis : List Pos) : List Pos := []

/-- `self.reset()` followed by `self.way_exists(node, dest)` — the only
call pattern the source ever uses (inside `possible_orients`). -/
def wayExists (walls : List Wall) (node dest : Pos) : Bool :=
  (wayExistsGo walls dest FUEL node []).1

/-- The body of the `while queue` loop of `Validator.bfs`, with the
queue and visited set explicit.  Pop the front, return its depth if it
satisfies the goal, otherwise push every unvisited legal move with
depth + 1 (adding it to visited), and continue; an empty queue returns
`1000000`. -/
def bfsLoop (grid : Grid) (walls : List Wall) (wins : Pos) :
    Nat → List (Pos × Nat) → List Pos → Nat
  | 0, _, _ => 1000000
  | _ + 1, [], _ => 1000000
  | fuel + 1, (curr, depth) :: rest, vis =>
    if curr.1 = wins.1 ∨ curr.2 = wins.2 then depth
    else
      let acc := (possibleMoves grid walls curr).foldl
        (fun acc m => if m ∈ acc.2 then acc else (acc.1 ++ [(m, depth + 1)], m :: acc.2))
        (rest, vis)
      bfsLoop grid walls wins fuel acc.1 acc.2

/-- `Validator.bfs(pos, wins)`: reset visited, seed the queue with
`(pos, 0)`, mark `pos` visited, and run the loop. -/
def bfs (grid : Grid) (walls : List Wall) (pos wins : Pos) : Nat :=
  bfsLoop grid walls wins FUEL [(pos, 0)] [pos]

/-- One iteration of the `for dx, dy in DEFAULT` loop of
`Validator.possible_orients(pos)`: bounds test `-1 <= end < 9` on both
axes, overlap test against the current walls, speculative
`self.walls.append(Wall(pos, end))`, connectivity check for every
player (each preceded by `self.reset()`, hence `wayExists`), then
`del self.walls[-1]` (`dropLast`).  The wall list is threaded in the
accumulator's second component. -/
def orientStep (players : List Player) (pos : Pos)
    (acc : List Dir × List Wall) (d : Dir) : List Dir × List Wall :=
  let e : Pos := (pos.1 + 2 * d.1, pos.2 + 2 * d.2)
  if -1 ≤ e.1 ∧ e.1 < 9 ∧ -1 ≤ e.2 ∧ e.2 < 9 then
    if anyOverlap acc.2 pos e false = false then
      let walls1 := acc.2 ++ [mkWall pos e]
      let can := players.all fun pl => wayExists walls1 pl.position pl.wins
      let walls2 := walls1.dropLast
      (if can then acc.1 ++ [d] else acc.1, walls2)
    else acc
  else acc

/-- `Validator.possible_orients(pos)` with the shared wall list
threaded: result list of directions, plus the wall list as it stands
after the call. -/
def possibleOrientsSt (players : List Player) (walls : List Wall) (pos : Pos) :
    List Dir × List Wall :=
  DEFAULT.foldl (orientStep players pos) ([], walls)

/-- The lattice points `(x, y)` in the order the source's
`for y in range(8): for x in range(8)` loops visit them. -/
def latticePoints : List Pos :=
  ((List.range 8).map fun y => (List.range 8).map fun x => ((x : Int), (y : Int))).flatten

/-- One lattice point of the `possible_walls` double loop: append the
point when its `possible_orients` list is nonempty. -/
def wallStartStep (players : List Player) (acc : List Pos × List Wall) (p : Pos) :
    List Pos × List Wall :=
  let r := possibleOrientsSt players acc.2 p
  (if r.1 ≠ [] then acc.1 ++ [p] else acc.1, r.2)

/-- `Validator.possible_walls(player)`: empty immediately when the
player has no walls left, otherwise every lattice point whose
`possible_orients` list is nonempty, with the wall list threaded. -/
def possibleWallsSt (players : List Player) (walls : List Wall) (pl : Player) :
    List Pos × List Wall :=
  if pl.remaining_walls = 0 then ([], walls)
  else latticePoints.foldl (wallStartStep players) ([], walls)

/-- One lattice point of the `all_possible_walls` double loop: append
`(p, d)` for every direction `d` of `possible_orients(p)`. -/
def wallEnumStep (players : List Player) (acc : List (Pos × Dir) × List Wall) (p : Pos) :
    List (Pos × Dir) × List Wall :=
  let r := possibleOrientsSt players acc.2 p
  (acc.1 ++ r.1.map fun d => (p, d), r.2)

/-- `Validator.all_possible_walls()`: every `(lattice point, direction)`
pair returned by `possible_orients`, in loop order, wall list
threaded. -/
def allPossibleWallsSt (players : List Player) (walls : List Wall) :
    List (Pos × Dir) × List Wall :=
  latticePoints.foldl (wallEnumStep players) ([], walls)

/-- One candidate evaluation of `Validator.best_wall`: append the
candidate wall, score it (`bfs` of every player whose position differs
from `my_pos`, minus the bot's own `bfs`), `del self.walls[-1]`, and
keep the strictly better candidate. -/
def bestWallStep (grid : Grid) (players : List Player) (myPos win : Pos)
    (acc : (Option (Pos × Dir) × Int) × List Wall) (pd : Pos × Dir) :
    (Option (Pos × Dir) × Int) × List Wall :=
  let walls1 := acc.2 ++ [mkWall pd.1 (pd.1.1 + 2 * pd.2.1, pd.1.2 + 2 * pd.2.2)]
  let score : Int :=
    (players.foldl
      (fun s pl => if pl.position ≠ myPos then s + (bfs grid walls1 pl.position pl.wins : Int) else s)
      0) - (bfs grid walls1 myPos win : Int)
  let walls2 := walls1.dropLast
  (if score > acc.1.2 then (some pd, score) else acc.1, walls2)

/-- `Validator.best_wall(my_pos, win)` with the wall list threaded:
evaluate every entry of `all_possible_walls`, starting from
`(None, -1000)`. -/
def bestWallSt (grid : Grid) (players : List Player) (myPos win : Pos)
    (walls : List Wall) : Option (Pos × Dir) × List Wall :=
  let aw := allPossibleWallsSt players walls
  let r := aw.1.foldl (bestWallStep grid players myPos win) ((none, -1000), aw.2)
  (r.1.1, r.2)

/-- The state owned by `class Game` that the rule engine manipulates:
board grid, wall list, players, current player index and player
count. -/
structure GameState where
  grid : Grid
  walls : List Wall
  players : List Player
  currplayer : Nat
  numPlayers : Nat
  deriving DecidableEq, Repr

/-- `Game.make_move(type, pos, orient)`: no validation of any kind is
performed.  `"wall"` appends `Wall(pos, pos + 2*orient)`, decrements
the acting player's wall count and advances the turn; `"move"` moves
the grid occupant, updates the player's position/`won` flag and
advances the turn; any other type does nothing.  (The Python
`orient=None` default is only ever used with `type == "move"`, where
`orient` is ignored.) -/
def makeMove (g : GameState) (ty : String) (pos : Pos) (orient : Dir) : GameState :=
  if ty = "wall" then
    let pl := g.players.getD g.currplayer defaultPlayer
    { g with
      walls := g.walls ++ [mkWall pos (pos.1 + 2 * orient.1, pos.2 + 2 * orient.2)],
      players := g.players.set g.currplayer pl.place_wall,
      currplayer := (g.currplayer + 1) % g.numPlayers }
  else if ty = "move" then
    let pl := g.players.getD g.currplayer defaultPlayer
    { g with
      grid := gridMove g.grid pl.position pos,
      players := g.players.set g.currplayer (pl.setpos pos),
      currplayer := (g.currplayer + 1) % g.numPlayers }
  else g

/-! ### Helper lemmas -/

/-- The full success condition of one direction of
`possible_orients`: in bounds, no overlap with the existing walls, and
every player still reaches its goal with the candidate appended. -/
def orientOK (players : List Player) (walls : List Wall) (pos : Pos) (d : Dir) : Bool :=
  let e : Pos := (pos.1 + 2 * d.1, pos.2 + 2 * d.2)
  decide (-1 ≤ e.1 ∧ e.1 < 9 ∧ -1 ≤ e.2 ∧ e.2 < 9) &&
  (!anyOverlap walls pos e false) &&
  (players.all fun pl => wayExists (walls ++ [mkWall pos e]) pl.position pl.wins)

theorem orientStep_eq (players : List Player) (pos : Pos) (r : List Dir)
    (w : List Wall) (d : Dir) :
    orientStep players pos (r, w) d =
      ((if orientOK players w pos d then r ++ [d] else r), w) := by
  unfold orientStep orientOK
  by_cases h1 : -1 ≤ pos.1 + 2 * d.1 ∧ pos.1 + 2 * d.1 < 9 ∧
      -1 ≤ pos.2 + 2 * d.2 ∧ pos.2 + 2 * d.2 < 9
  · by_cases h2 : anyOverlap w pos (pos.1 + 2 * d.1, pos.2 + 2 * d.2) false = false
    · simp [h1, h2, List.dropLast_concat]
    · have h2' : anyOverlap w pos (pos.1 + 2 * d.1, pos.2 + 2 * d.2) false = true := by
        cases h : anyOverlap w pos (pos.1 + 2 * d.1, pos.2 + 2 * d.2) false
        · exact absurd h h2
        · rfl
      simp [h1, h2, h2']
  · simp [h1]

theorem orientStep_snd (players : List Player) (pos : Pos)
    (acc : List Dir × List Wall) (d : Dir) :
    (orientStep players pos acc d).2 = acc.2 := by
  obtain ⟨r, w⟩ := acc
  rw [orientStep_eq]

theorem foldl_snd_const {α β γ : Type _} (f : β × γ → α → β × γ)
    (hf : ∀ acc a, (f acc a).2 = acc.2) :
    ∀ (l : List α) (b : β) (c : γ), (l.foldl f (b, c)).2 = c := by
  intro l
  induction l with
  | nil => intro b c; rfl
  | cons a l ih =>
    intro b c
    rw [List.foldl_cons]
    exact (ih (f (b, c) a).1 (f (b, c) a).2).trans (hf (b, c) a)

theorem possibleOrientsSt_snd (players : List Player) (walls : List Wall) (pos : Pos) :
    (possibleOrientsSt players walls pos).2 = walls := by
  have h := foldl_snd_const (orientStep players pos) (orientStep_snd players pos)
    DEFAULT ([] : List Dir) walls
  unfold possibleOrientsSt
  exact h

theorem wallEnumStep_snd (players : List Player)
    (acc : List (Pos × Dir) × List Wall) (p : Pos) :
    (wallEnumStep players acc p).2 = acc.2 := by
  unfold wallEnumStep
  exact possibleOrientsSt_snd players acc.2 p

theorem allPossibleWallsSt_snd (players : List Player) (walls : List Wall) :
    (allPossibleWallsSt players walls).2 = walls := by
  have h := foldl_snd_const (wallEnumStep players) (wallEnumStep_snd players)
    latticePoints ([] : List (Pos × Dir)) walls
  unfold allPossibleWallsSt
  exact h

theorem bestWallStep_snd (grid : Grid) (players : List Player) (myPos win : Pos)
    (acc : (Option (Pos × Dir) × Int) × List Wall) (pd : Pos × Dir) :
    (bestWallStep grid players myPos win acc pd).2 = acc.2 := by
  unfold bestWallStep
  exact List.dropLast_concat ..

theorem bestWallSt_snd (grid : Grid) (players : List Player) (myPos win : Pos)
    (walls : List Wall) :
    (bestWallSt grid players myPos win walls).2 = walls := by
  have h := foldl_snd_const (bestWallStep grid players myPos win)
    (bestWallStep_snd grid players myPos win)
    (allPossibleWallsSt players walls).1
    ((none : Option (Pos × Dir)), (-1000 : Int)) (allPossibleWallsSt players walls).2
  unfold bestWallSt
  dsimp only
  rw [h]
  exact allPossibleWallsSt_snd players walls

/-- Membership in the accumulated direction list of the
`possible_orients` fold means the direction was either already present
or passed the full check against the (invariant) wall list. -/
theorem mem_foldl_orientStep (players : List Player) (pos : Pos) (x : Dir) :
    ∀ (ds : List Dir) (r : List Dir) (w : List Wall),
      x ∈ (ds.foldl (orientStep players pos) (r, w)).1 →
      x ∈ r ∨ ∃ d ∈ ds, x = d ∧ orientOK players w pos d = true := by
  intro ds
  induction ds with
  | nil => intro r w h; exact Or.inl h
  | cons d ds ih =>
    intro r w h
    rw [List.foldl_cons, orientStep_eq] at h
    rcases ih _ _ h with h' | ⟨d', hd', hx, hok⟩
    · by_cases hok : orientOK players w pos d = true
      · rw [if_pos hok] at h'
        rcases List.mem_append.1 h' with h'' | h''
        · exact Or.inl h''
        · exact Or.inr ⟨d, List.mem_cons_self d ds, List.mem_singleton.1 h'', hok⟩
      · rw [if_neg hok] at h'
        exact Or.inl h'
    · exact Or.inr ⟨d', List.mem_cons_of_mem d hd', hx, hok⟩

/-! ### C3: speculative wall validation always reverts -/

/-- C3: speculative wall validation always reverts: both
`possible_orients` and `best_wall` return the shared wall list exactly
as it was before the call — the candidate wall appended for each
connectivity/score check is removed on every path, so no caller can
observe the speculative wall. -/
theorem speculative_wall_check_reverts (grid : Grid) (players : List Player)
    (walls : List Wall) (pos myPos win : Pos) :
    (possibleOrientsSt players walls pos).2 = walls ∧
    (bestWallSt grid players myPos win walls).2 = walls :=
  ⟨possibleOrientsSt_snd players walls pos, bestWallSt_snd grid players myPos win walls⟩

/-! ### C1: walls offered by possible_orients keep every player connected -/

/-- C1: every direction returned by `possible_orients(pos)` is one
whose wall, appended to the current wall list, still lets every player
reach its goal: `way_exists` holds for each player from its current
position to its `wins` condition with the candidate wall in place. -/
theorem possible_orients_keeps_way_exists (players : List Player) (walls : List Wall)
    (pos : Pos) (d : Dir)
    (hd : d ∈ (possibleOrientsSt players walls pos).1)
    (pl : Player) (hpl : pl ∈ players) :
    wayExists (walls ++ [mkWall pos (pos.1 + 2 * d.1, pos.2 + 2 * d.2)])
      pl.position pl.wins = true := by
  unfold possibleOrientsSt at hd
  rcases mem_foldl_orientStep players pos d DEFAULT [] walls hd with h | ⟨d', _, rfl, hok⟩
  · cases h
  · unfold orientOK at hok
    rw [Bool.and_eq_true, Bool.and_eq_true] at hok
    exact List.all_eq_true.1 hok.2 pl hpl

/-- A player already standing on its goal line, as built by
`Player.__init__` at `(4, 4)` (`wins = (4, -1)`). -/
def pWitness : Player := ⟨"bot", (4, 4), 10, false, (4, -1)⟩

theorem possible_orients_keeps_way_exists_witness :
    (((1, 0) : Dir) ∈ (possibleOrientsSt [pWitness] [] ((0, 0) : Pos)).1 ∧ pWitness ∈ [pWitness]) ∧
    wayExists ([] ++ [mkWall (0, 0) ((0 : Int) + 2 * 1, (0 : Int) + 2 * 0)])
      pWitness.position pWitness.wins = true :=
  ⟨⟨by decide, by decide⟩,
    possible_orients_keeps_way_exists [pWitness] [] (0, 0) (1, 0) (by decide)
      pWitness (by decide)⟩

/-! ### C7: bfs returns 0 exactly on positions already satisfying the goal -/

theorem bfs_push_all_pos (depth : Nat) :
    ∀ (ms : List Pos) (q : List (Pos × Nat)) (vis : List Pos),
      (∀ e ∈ q, e.2 ≠ 0) →
      ∀ e ∈ (ms.foldl
        (fun acc m => if m ∈ acc.2 then acc else (acc.1 ++ [(m, depth + 1)], m :: acc.2))
        (q, vis)).1, e.2 ≠ 0 := by
  intro ms
  induction ms with
  | nil => intro q vis hq; exact hq
  | cons m ms ih =>
    intro q vis hq
    rw [List.foldl_cons]
    by_cases hm : m ∈ vis
    · rw [if_pos hm]
      exact ih q vis hq
    · rw [if_neg hm]
      refine ih (q ++ [(m, depth + 1)]) (m :: vis) ?_
      intro e he
      rcases List.mem_append.1 he with h | h
      · exact hq e h
      · rw [List.mem_singleton.1 h]
        exact Nat.succ_ne_zero depth

theorem bfsLoop_ne_zero (grid : Grid) (walls : List Wall) (wins : Pos) :
    ∀ (fuel : Nat) (q : List (Pos × Nat)) (vis : List Pos),
      (∀ e ∈ q, e.2 ≠ 0) → bfsLoop grid walls wins fuel q vis ≠ 0 := by
  intro fuel
  induction fuel with
  | zero => intro q vis _; simp [bfsLoop]
  | succ fuel ih =>
    intro q vis hq
    match q with
    | [] => simp [bfsLoop]
    | (curr, depth) :: rest =>
      rw [bfsLoop]
      by_cases hg : curr.1 = wins.1 ∨ curr.2 = wins.2
      · rw [if_pos hg]
        exact hq (curr, depth) (List.mem_cons_self _ _)
      · rw [if_neg hg]
        refine ih _ _ ?_
        refine bfs_push_all_pos depth (possibleMoves grid walls curr) rest vis ?_
        intro e he
        exact hq e (List.mem_cons_of_mem _ he)

/-- C7: `Validator.bfs(pos, wins)` returns `0` exactly when `pos`
itself already satisfies the goal condition (`pos[0] == wins[0]` or
`pos[1] == wins[1]`); any other dequeue happens at depth at least 1 and
the unreachable sentinel is `1000000`. -/
theorem bfs_eq_zero_iff_goal (grid : Grid) (walls : List Wall) (pos wins : Pos) :
    bfs grid walls pos wins = 0 ↔ (pos.1 = wins.1 ∨ pos.2 = wins.2) := by
  unfold bfs FUEL
  rw [show (100 : Nat) = 99 + 1 from rfl, bfsLoop]
  by_cases hg : pos.1 = wins.1 ∨ pos.2 = wins.2
  · rw [if_pos hg]
    simp [hg]
  · rw [if_neg hg]
    constructor
    · intro h
      exact absurd h (bfsLoop_ne_zero grid walls wins 99 _ _
        (bfs_push_all_pos 0 (possibleMoves grid walls pos) [] [pos] (by simp)))
    · intro h
      exact absurd h hg

/-! ### C2 and C6: Game.make_move performs no validation -/

/-- The empty 9×9 grid. -/
def emptyGrid : Grid := List.replicate 9 (List.replicate 9 (none : Option Nat))

/-- Player 0 of a fresh 2-player game (`Player("darkgreen", (4, 0), 10)`). -/
def playerGreen : Player := ⟨"darkgreen", (4, 0), 10, false, (-1, 8)⟩

/-- Player 1 of a fresh 2-player game (`Player("slateblue", (4, 8), 10)`). -/
def playerBlue : Player := ⟨"slateblue", (4, 8), 10, false, (-1, 0)⟩

/-- The engine state of a fresh 2-player game (`Game.__init__(2, ...)`). -/
def freshGame2 : GameState :=
  { grid := gridSet (gridSet emptyGrid (4, 0) (some 0)) (4, 8) (some 1),
    walls := [],
    players := [playerGreen, playerBlue],
    currplayer := 0,
    numPlayers := 2 }

/-- C2 counterexample: in the fresh 2-player game, `(0, 0)` is not a
member of `possible_moves` of the current player's position, yet
`make_move("move", (0, 0))` does not reject and does not leave the
state unchanged: it teleports the pawn and advances the turn. -/
theorem make_move_illegal_destination_mutates :
    ((0, 0) : Pos) ∉ possibleMoves freshGame2.grid freshGame2.walls
      (freshGame2.players.getD freshGame2.currplayer defaultPlayer).position ∧
    makeMove freshGame2 "move" (0, 0) (0, 0) ≠ freshGame2 := by
  constructor
  · decide
  · decide

/-- C2 amended: `Game.make_move("move", pos)` performs no legality
check: even when `pos` is not a member of `possible_moves` of the
current player's position, it unconditionally moves the grid occupant,
updates the player via `setpos`, and advances the current player index
modulo the player count. -/
theorem make_move_applies_unconditionally (g : GameState) (pos : Pos) (pl : Player)
    (hpl : g.players[g.currplayer]? = some pl)
    (_hillegal : pos ∉ possibleMoves g.grid g.walls pl.position) :
    makeMove g "move" pos (0, 0) =
      { g with
        grid := gridMove g.grid pl.position pos,
        players := g.players.set g.currplayer (pl.setpos pos),
        currplayer := (g.currplayer + 1) % g.numPlayers } := by
  have hd : g.players.getD g.currplayer defaultPlayer = pl := by
    rw [List.getD_eq_getElem?_getD, hpl]
    rfl
  unfold makeMove
  rw [if_neg (by decide), if_pos rfl, hd]

theorem make_move_applies_unconditionally_witness :
    (freshGame2.players[freshGame2.currplayer]? = some playerGreen ∧
      ((0, 0) : Pos) ∉ possibleMoves freshGame2.grid freshGame2.walls playerGreen.position) ∧
    makeMove freshGame2 "move" (0, 0) (0, 0) =
      { freshGame2 with
        grid := gridMove freshGame2.grid playerGreen.position (0, 0),
        players := freshGame2.players.set freshGame2.currplayer (playerGreen.setpos (0, 0)),
        currplayer := (freshGame2.currplayer + 1) % freshGame2.numPlayers } :=
  ⟨⟨by decide, by decide⟩,
    make_move_applies_unconditionally freshGame2 (0, 0) playerGreen (by decide) (by decide)⟩

/-- The fresh 2-player game with player 0's wall budget exhausted. -/
def freshGame2NoWalls : GameState :=
  { freshGame2 with players := [⟨"darkgreen", (4, 0), 0, false, (-1, 8)⟩, playerBlue] }

/-- C6 counterexample: with the acting player's wall budget at 0,
`make_move("wall", ...)` does not reject: it appends the wall, advances
the turn, and drives the budget to `-1`, a negative value. -/
theorem wall_budget_not_enforced :
    (freshGame2NoWalls.players.getD freshGame2NoWalls.currplayer defaultPlayer).remaining_walls
        = 0 ∧
    ((makeMove freshGame2NoWalls "wall" (0, 0) (1, 0)).players.getD 0
        defaultPlayer).remaining_walls = -1 ∧
    (makeMove freshGame2NoWalls "wall" (0, 0) (1, 0)).walls.length
        = freshGame2NoWalls.walls.length + 1 := by
  refine ⟨by decide, by decide, by decide⟩

/-- C6 amended: `Game.make_move("wall", pos, orient)` never rejects:
whatever the acting player's remaining budget (including 0), it appends
the wall, decrements the budget (possibly below zero) and advances the
turn.  The budget-0 guard lives only in the query layer:
`possible_walls` returns the empty list for a player with no walls
left. -/
theorem make_wall_applies_unconditionally (g : GameState) (pos : Pos) (orient : Dir)
    (pl : Player) (hpl : g.players[g.currplayer]? = some pl) :
    makeMove g "wall" pos orient =
      { g with
        walls := g.walls ++ [mkWall pos (pos.1 + 2 * orient.1, pos.2 + 2 * orient.2)],
        players := g.players.set g.currplayer pl.place_wall,
        currplayer := (g.currplayer + 1) % g.numPlayers } ∧
    pl.place_wall.remaining_walls = pl.remaining_walls - 1 ∧
    (pl.remaining_walls = 0 → (possibleWallsSt g.players g.walls pl).1 = []) := by
  have hd : g.players.getD g.currplayer defaultPlayer = pl := by
    rw [List.getD_eq_getElem?_getD, hpl]
    rfl
  refine ⟨?_, rfl, ?_⟩
  · unfold makeMove
    rw [if_pos rfl, hd]
  · intro h0
    unfold possibleWallsSt
    rw [if_pos h0]

theorem make_wall_applies_unconditionally_witness :
    freshGame2NoWalls.players[freshGame2NoWalls.currplayer]? =
        some (⟨"darkgreen", (4, 0), 0, false, (-1, 8)⟩ : Player) ∧
    (makeMove freshGame2NoWalls "wall" (0, 0) (1, 0) =
      { freshGame2NoWalls with
        walls := freshGame2NoWalls.walls ++
          [mkWall (0, 0) ((0 : Int) + 2 * 1, (0 : Int) + 2 * 0)],
        players := freshGame2NoWalls.players.set freshGame2NoWalls.currplayer
          (Player.place_wall ⟨"darkgreen", (4, 0), 0, false, (-1, 8)⟩),
        currplayer := (freshGame2NoWalls.currplayer + 1) % freshGame2NoWalls.numPlayers } ∧
      (Player.place_wall ⟨"darkgreen", (4, 0), 0, false, (-1, 8)⟩).remaining_walls =
        (⟨"darkgreen", (4, 0), 0, false, (-1, 8)⟩ : Player).remaining_walls - 1 ∧
      ((⟨"darkgreen", (4, 0), 0, false, (-1, 8)⟩ : Player).remaining_walls = 0 →
        (possibleWallsSt freshGame2NoWalls.players freshGame2NoWalls.walls
          ⟨"darkgreen", (4, 0), 0, false, (-1, 8)⟩).1 = [])) :=
  ⟨by decide,
    make_wall_applies_unconditionally freshGame2NoWalls (0, 0) (1, 0)
      ⟨"darkgreen", (4, 0), 0, false, (-1, 8)⟩ (by decide)⟩

/-! ### C10: the either-axis win check collapses to the constrained axis -/

/-- C10: every player built by `Player.__init__` carries the sentinel
`-1` on the unconstrained axis of its goal tuple, and since `-1` never
equals a coordinate in `[0, 8]`, `Player.setpos` at an in-range
position sets `won` exactly when the coordinate on the constrained
axis equals the goal value (previous `won` is kept — the flag is
sticky). -/
theorem setpos_won_iff_constrained_axis :
    (∀ (c : String) (p0 : Pos) (wb : Int) (p : Player),
      mkPlayer c p0 wb = some p → p.wins.1 = -1 ∨ p.wins.2 = -1) ∧
    (∀ (p : Player) (pos : Pos),
      0 ≤ pos.1 ∧ pos.1 ≤ 8 → 0 ≤ pos.2 ∧ pos.2 ≤ 8 →
      p.wins.1 = -1 ∨ p.wins.2 = -1 →
      (p.setpos pos).won =
        (p.won || if p.wins.1 = -1 then decide (pos.2 = p.wins.2)
                  else decide (pos.1 = p.wins.1))) := by
  constructor
  · intro c p0 wb p hp
    unfold mkPlayer at hp
    by_cases h1 : p0.2 = 4
    · rw [if_pos h1] at hp
      cases hp
      exact Or.inr rfl
    · rw [if_neg h1] at hp
      by_cases h2 : p0.1 = 4
      · rw [if_pos h2] at hp
        cases hp
        exact Or.inl rfl
      · rw [if_neg h2] at hp
        cases hp
  · intro p pos hx hy hs
    unfold Player.setpos
    by_cases h1 : p.wins.1 = -1
    · rw [if_pos h1]
      have hx1 : ¬ pos.1 = p.wins.1 := by rw [h1]; omega
      by_cases h2 : pos.2 = p.wins.2
      · simp [h2]
      · simp [hx1, h2]
    · rw [if_neg h1]
      have h2 : p.wins.2 = -1 := hs.resolve_left h1
      have hy1 : ¬ pos.2 = p.wins.2 := by rw [h2]; omega
      by_cases h3 : pos.1 = p.wins.1
      · simp [h3]
      · simp [hy1, h3]

theorem setpos_won_iff_constrained_axis_witness :
    (mkPlayer "darkgreen" (4, 0) 10 = some playerGreen ∧
      (playerGreen.wins.1 = -1 ∨ playerGreen.wins.2 = -1)) ∧
    (playerGreen.setpos ((4 : Int), (8 : Int))).won =
      (playerGreen.won ||
        if playerGreen.wins.1 = -1 then decide ((((4 : Int), (8 : Int)) : Pos).2 = playerGreen.wins.2)
        else decide ((((4 : Int), (8 : Int)) : Pos).1 = playerGreen.wins.1)) :=
  ⟨⟨by decide, setpos_won_iff_constrained_axis.1 "darkgreen" (4, 0) 10 playerGreen (by decide)⟩,
    setpos_won_iff_constrained_axis.2 playerGreen (4, 8) (by decide) (by decide)
      (setpos_won_iff_constrained_axis.1 "darkgreen" (4, 0) 10 playerGreen (by decide))⟩

/-! ### C8: way_exists and the visited set -/

/-- Four legally placeable walls around `(2, 7)`: they leave exactly
one route from `(2, 7)` to row 8, via `(1, 7)` and `(1, 8)`. -/
def wallsCorridor : List Wall :=
  [mkWall (0, 5) (0, 7), mkWall (0, 6) (2, 6), mkWall (2, 5) (2, 7), mkWall (1, 7) (3, 7)]

/-- C8 counterexample: `way_exists` does NOT reset its own visited
tracking.  On an unchanged board, a first call from `(2, 7)` towards
goal `(-1, 8)` succeeds, leaving `(1, 7)` and `(2, 7)` in
`self.visited`; an immediately repeated call with the same arguments
then returns `False`, because the only route is now blocked by the
leaked visited entries.  (The reset is performed by the callers:
`possible_orients` calls `self.reset()` before every `way_exists`
call.) -/
theorem way_exists_leaks_visited_state :
    (wayExistsGo wallsCorridor (-1, 8) FUEL (2, 7) []).1 = true ∧
    (wayExistsGo wallsCorridor (-1, 8) FUEL (2, 7)
      (wayExistsGo wallsCorridor (-1, 8) FUEL (2, 7) []).2).1 = false := by
  constructor
  · decide
  · decide

/-- C8 amended: `way_exists` itself leaks its visited set across calls
(see the counterexample), but every call site in the source first runs
`Validator.reset`, and a reset-preceded call is a pure function of the
board: it ignores whatever visited state the previous call left, so two
consecutive reset-preceded calls with the same arguments return the
same Boolean. -/
theorem reset_then_way_exists_is_pure (walls : List Wall) (s dest : Pos)
    (vis1 vis2 : List Pos) :
    (wayExistsGo walls dest FUEL s (resetVisited vis1)).1 =
      (wayExistsGo walls dest FUEL s (resetVisited vis2)).1 ∧
    (wayExistsGo walls dest FUEL s (resetVisited vis1)).1 = wayExists walls s dest :=
  ⟨rfl, rfl⟩

/-! ### C9: all_possible_walls and canonical-segment duplicates -/

/-- `Wall.__init__` on a real (non-fake) wall, with the swap condition
spelled out: a restatement of `mkWall` used to discharge the
orientation case analyses. -/
theorem mkWall_real_eq (sx sy ex ey : Int) :
    mkWall (sx, sy) (ex, ey) =
      if 2 * sx + 1 > 2 * ex + 1 ∨ 2 * sy + 1 > 2 * ey + 1 then
        ⟨(2 * ex + 1, 2 * ey + 1), (2 * sx + 1, 2 * sy + 1)⟩
      else ⟨(2 * sx + 1, 2 * sy + 1), (2 * ex + 1, 2 * ey + 1)⟩ := rfl

/-- C9 counterexample: `all_possible_walls` does not deduplicate under
canonicalization.  With no players and no walls, both `((0,0), (1,0))`
and `((2,0), (-1,0))` appear in the output, are distinct entries, and
denote the same canonical wall segment `Wall((0,0), (2,0))`. -/
theorem all_possible_walls_contains_duplicate_segment :
    ((((0 : Int), (0 : Int)), ((1 : Int), (0 : Int))) ∈ (allPossibleWallsSt [] []).1 ∧
      (((2 : Int), (0 : Int)), ((-1 : Int), (0 : Int))) ∈ (allPossibleWallsSt [] []).1) ∧
    ((((0 : Int), (0 : Int)), ((1 : Int), (0 : Int))) : Pos × Dir) ≠
      (((2 : Int), (0 : Int)), ((-1 : Int), (0 : Int))) ∧
    mkWall (0, 0) ((0 : Int) + 2 * 1, (0 : Int) + 2 * 0) =
      mkWall (2, 0) ((2 : Int) + 2 * (-1), (0 : Int) + 2 * 0) := by
  exact ⟨⟨by decide, by decide⟩, by decide, by decide⟩

/-- C9 amended: the enumeration is not deduplicated across lattice
points (see the counterexample: opposite directions from lattice points
two apart yield the same canonical segment), but entries sharing the
same lattice point always denote pairwise distinct canonical wall
segments: distinct directions from one point never produce the same
canonical wall. -/
theorem orients_at_same_point_give_distinct_walls (p : Pos) (d1 d2 : Dir)
    (h1 : d1 ∈ DEFAULT) (h2 : d2 ∈ DEFAULT) (hne : d1 ≠ d2) :
    mkWall p (p.1 + 2 * d1.1, p.2 + 2 * d1.2) ≠
      mkWall p (p.1 + 2 * d2.1, p.2 + 2 * d2.2) := by
  obtain ⟨x, y⟩ := p
  fin_cases h1 <;> fin_cases h2 <;>
    first
      | exact absurd rfl hne
      | (dsimp only
         rw [mkWall_real_eq, mkWall_real_eq]
         split_ifs <;>
           (intro h
            simp only [Wall.mk.injEq, Prod.mk.injEq] at h
            omega))

theorem orients_at_same_point_give_distinct_walls_witness :
    (((1, 0) : Dir) ∈ DEFAULT ∧ ((0, 1) : Dir) ∈ DEFAULT ∧ ((1, 0) : Dir) ≠ (0, 1)) ∧
    mkWall ((0, 0) : Pos) (((0, 0) : Pos).1 + 2 * ((1, 0) : Dir).1,
        ((0, 0) : Pos).2 + 2 * ((1, 0) : Dir).2) ≠
      mkWall ((0, 0) : Pos) (((0, 0) : Pos).1 + 2 * ((0, 1) : Dir).1,
        ((0, 0) : Pos).2 + 2 * ((0, 1) : Dir).2) :=
  ⟨⟨by decide, by decide, by decide⟩,
    orients_at_same_point_give_distinct_walls (0, 0) (1, 0) (0, 1)
      (by decide) (by decide) (by decide)⟩

/-! ### C5: symmetry of the overlap test -/

/-- C5 counterexample: `overlaps` is not symmetric on wall-segment
pairs.  For the fake probe segments `a = Wall((0,0), (2,0), fake)` (the
2-cell jump probe shape) and `b = Wall((1,0), (2,0), fake)` (the 1-cell
edge probe shape), `a` swallows `b`'s endpoint: `overlaps(a, b)` is
`True` but `overlaps(b, a)` is `False` — the containment is detected in
only one argument order. -/
theorem overlaps_not_symmetric :
    (mkWall (0, 0) (2, 0) true).overlaps (mkWall (1, 0) (2, 0) true) = true ∧
    (mkWall (1, 0) (2, 0) true).overlaps (mkWall (0, 0) (2, 0) true) = false := by
  exact ⟨by decide, by decide⟩

/-- `overlaps` is symmetric on every pair of segments with the same
taxicab length — in particular on the canonical 2-lattice-unit placed
walls.  Each of the source's seven cases maps to a mirror case with
the argument order swapped (identity ↦ identity, each collinear
containment case ↦ the opposite partial-overlap case, each
perpendicular crossing case ↦ the other crossing case). -/
theorem overlaps_swap (a1 a2 b1 b2 c1 c2 e1 e2 : Int)
    (hlen : b1 - a1 + b2 - a2 = e1 - c1 + e2 - c2) :
    (Wall.mk (a1, a2) (b1, b2)).overlaps (Wall.mk (c1, c2) (e1, e2)) =
      (Wall.mk (c1, c2) (e1, e2)).overlaps (Wall.mk (a1, a2) (b1, b2)) := by
  simp only [Wall.overlaps, Prod.mk.injEq]
  rw [decide_eq_decide]
  constructor <;> intro h <;> rcases h with h | h | h | h | h | h | h <;>
    first
      | exact Or.inl (by omega)
      | exact Or.inr (Or.inl (by omega))
      | exact Or.inr (Or.inr (Or.inl (by omega)))
      | exact Or.inr (Or.inr (Or.inr (Or.inl (by omega))))
      | exact Or.inr (Or.inr (Or.inr (Or.inr (Or.inl (by omega)))))
      | exact Or.inr (Or.inr (Or.inr (Or.inr (Or.inr (Or.inl (by omega))))))
      | exact Or.inr (Or.inr (Or.inr (Or.inr (Or.inr (Or.inr (by omega))))))

/-- C5 amended: `overlaps` is not symmetric on arbitrary segments (see
the counterexample, built from the program's probe shapes), but it is
symmetric on every pair of canonicalized placed walls — the
2-lattice-unit, axis-aligned, non-fake segments `Wall(p, p + 2*d)`
that ever enter the shared wall list. -/
theorem overlaps_symmetric_on_placed_walls (p q : Pos) (d e : Dir)
    (hd : d ∈ DEFAULT) (he : e ∈ DEFAULT) :
    (mkWall p (p.1 + 2 * d.1, p.2 + 2 * d.2)).overlaps
        (mkWall q (q.1 + 2 * e.1, q.2 + 2 * e.2)) =
      (mkWall q (q.1 + 2 * e.1, q.2 + 2 * e.2)).overlaps
        (mkWall p (p.1 + 2 * d.1, p.2 + 2 * d.2)) := by
  obtain ⟨px, py⟩ := p
  obtain ⟨qx, qy⟩ := q
  fin_cases hd <;> fin_cases he <;>
    (dsimp only
     rw [mkWall_real_eq, mkWall_real_eq]
     split_ifs <;>
       exact overlaps_swap _ _ _ _ _ _ _ _ (by omega))

theorem overlaps_symmetric_on_placed_walls_witness :
    (((0, 1) : Dir) ∈ DEFAULT ∧ ((1, 0) : Dir) ∈ DEFAULT) ∧
    (mkWall ((0, 0) : Pos) (((0, 0) : Pos).1 + 2 * ((0, 1) : Dir).1,
        ((0, 0) : Pos).2 + 2 * ((0, 1) : Dir).2)).overlaps
        (mkWall ((1, 0) : Pos) (((1, 0) : Pos).1 + 2 * ((1, 0) : Dir).1,
          ((1, 0) : Pos).2 + 2 * ((1, 0) : Dir).2)) =
      (mkWall ((1, 0) : Pos) (((1, 0) : Pos).1 + 2 * ((1, 0) : Dir).1,
          ((1, 0) : Pos).2 + 2 * ((1, 0) : Dir).2)).overlaps
        (mkWall ((0, 0) : Pos) (((0, 0) : Pos).1 + 2 * ((0, 1) : Dir).1,
          ((0, 0) : Pos).2 + 2 * ((0, 1) : Dir).2)) :=
  ⟨⟨by decide, by decide⟩,
    overlaps_symmetric_on_placed_walls (0, 0) (1, 0) (0, 1) (1, 0) (by decide) (by decide)⟩

/-! ### C4: side-step legality -/

/-- Board with the mover at `(4, 4)` and an opponent pawn at `(4, 5)`
(Scenario B/C shape). -/
def gridJump : Grid := gridSet (gridSet emptyGrid (4, 4) (some 0)) (4, 5) (some 1)

/-- Two legally placeable walls: `Wall((3,5), (5,5))` blocks the
straight jump over `(4, 5)`, and `Wall((4,2), (4,4))` crosses the
diagonal from `(4, 4)` to `(5, 5)` without blocking the board edge
between `(4, 5)` and `(5, 5)`. -/
def wallsJump : List Wall := [mkWall (3, 5) (5, 5), mkWall (4, 2) (4, 4)]

/-- C4 counterexample: at `(4, 4)` with the neighbor `(4, 5)` occupied
and the straight jump unavailable (the edge `(4,5)–(4,6)` is blocked),
the side cell `(5, 5)` is in bounds, unoccupied, and the edge
`(4,5)–(5,5)` between the neighbor and the cell is unblocked — yet
`(5, 5)` is not a member of `possible_moves((4, 4))`, because the code
tests the diagonal probe segment `(4,4)→(5,5)`, which the wall
`Wall((4,2),(4,4))` crosses. -/
theorem side_step_edge_claim_fails :
    gridGet gridJump 4 5 ≠ none ∧
    anyOverlap wallsJump (4, 5) (4, 6) true = true ∧
    gridGet gridJump 5 5 = none ∧
    anyOverlap wallsJump (4, 5) (5, 5) true = false ∧
    ((5, 5) : Pos) ∉ possibleMoves gridJump wallsJump (4, 4) := by
  exact ⟨by decide, by decide, by decide, by decide, by decide⟩

/-- C4 amended: when the neighbor in direction `(dx, dy)` is occupied
and the straight-jump branch is unavailable (its bounds/occupancy/probe
test fails), each side cell — `neighbor` offset by `±1` along the axis
orthogonal to the direction — is a member of `possible_moves(pos)` if
it passes the code's own test: in bounds, unoccupied, and the DIAGONAL
fake probe segment from `pos` to the side cell (not the edge
`neighbor`–cell) overlaps no wall. -/
theorem side_step_uses_diagonal_probe (grid : Grid) (walls : List Wall)
    (pos : Pos) (d : Dir) (hd : d ∈ DEFAULT)
    (hnb : 0 ≤ pos.1 + d.1 ∧ pos.1 + d.1 < 9 ∧ 0 ≤ pos.2 + d.2 ∧ pos.2 + d.2 < 9)
    (hocc : gridGet grid (pos.1 + d.1) (pos.2 + d.2) ≠ none)
    (hjump : ¬ (0 ≤ pos.1 + d.1 * 2 ∧ pos.1 + d.1 * 2 < 9 ∧
      0 ≤ pos.2 + d.2 * 2 ∧ pos.2 + d.2 * 2 < 9 ∧
      gridGet grid (pos.1 + d.1 * 2) (pos.2 + d.2 * 2) = none ∧
      anyOverlap walls pos (pos.1 + 2 * d.1, pos.2 + 2 * d.2) true = false)) :
    ((d.2 ≠ 0 ∧ pos.1 + 1 < 9 ∧ gridGet grid (pos.1 + 1) (pos.2 + d.2) = none ∧
        anyOverlap walls pos (pos.1 + 1, pos.2 + d.2) true = false) →
      (pos.1 + 1, pos.2 + d.2) ∈ possibleMoves grid walls pos) ∧
    ((d.2 ≠ 0 ∧ pos.1 - 1 ≥ 0 ∧ gridGet grid (pos.1 - 1) (pos.2 + d.2) = none ∧
        anyOverlap walls pos (pos.1 - 1, pos.2 + d.2) true = false) →
      (pos.1 - 1, pos.2 + d.2) ∈ possibleMoves grid walls pos) ∧
    ((d.1 ≠ 0 ∧ pos.2 + 1 < 9 ∧ gridGet grid (pos.1 + d.1) (pos.2 + 1) = none ∧
        anyOverlap walls pos (pos.1 + d.1, pos.2 + 1) true = false) →
      (pos.1 + d.1, pos.2 + 1) ∈ possibleMoves grid walls pos) ∧
    ((d.1 ≠ 0 ∧ pos.2 - 1 ≥ 0 ∧ gridGet grid (pos.1 + d.1) (pos.2 - 1) = none ∧
        anyOverlap walls pos (pos.1 + d.1, pos.2 - 1) true = false) →
      (pos.1 + d.1, pos.2 - 1) ∈ possibleMoves grid walls pos) := by
  have hmem : ∀ c : Pos, c ∈ movesFor grid walls pos d →
      c ∈ possibleMoves grid walls pos := by
    intro c hc
    unfold possibleMoves
    exact List.mem_flatten.2 ⟨_, List.mem_map_of_mem _ hd, hc⟩
  refine ⟨fun h1 => ?_, fun h2 => ?_, fun h3 => ?_, fun h4 => ?_⟩
  · apply hmem
    unfold movesFor
    rw [if_pos hnb, if_pos hocc, if_neg hjump, if_pos h1]
    simp [List.mem_append]
  · apply hmem
    unfold movesFor
    rw [if_pos hnb, if_pos hocc, if_neg hjump, if_pos h2]
    simp [List.mem_append]
  · apply hmem
    unfold movesFor
    rw [if_pos hnb, if_pos hocc, if_neg hjump, if_pos h3]
    simp [List.mem_append]
  · apply hmem
    unfold movesFor
    rw [if_pos hnb, if_pos hocc, if_neg hjump, if_pos h4]
    simp [List.mem_append]

/-- Only the jump-blocking wall, so the `(5, 5)` side-step is legal. -/
def wallsJumpOnly : List Wall := [mkWall (3, 5) (5, 5)]

theorem side_step_uses_diagonal_probe_witness :
    (((0, 1) : Dir) ∈ DEFAULT ∧ gridGet gridJump 4 5 ≠ none) ∧
    (((5 : Int), (5 : Int)) : Pos) ∈ possibleMoves gridJump wallsJumpOnly (4, 4) :=
  ⟨⟨by decide, by decide⟩,
    (side_step_uses_diagonal_probe gridJump wallsJumpOnly (4, 4) (0, 1)
        (by decide) (by decide) (by decide) (by decide)).1 (by decide)⟩
